import Mathlib

/-!
# Verification of the appointment backend's availability, booking and OTP core

This file is a shallow embedding, in Lean 4, of the JavaScript code of the
appointment backend (Express + mysql2 + an in-memory OTP store), together with
theorems settling the specification claims about it.

Modelling conventions, shared by all definitions below:

* JavaScript strings are modelled as `List Char` (JS compares strings by
  UTF-16 code units; for the ASCII data handled here this agrees with
  comparing Lean `Char` code points).  `String` values appear only at the
  boundary of concrete examples.
* MySQL `TIME` values are modelled as seconds since midnight (`Nat`),
  `DATE` values as their canonical `YYYY-MM-DD` string.  Binding a
  JS string `'H:MM'`/`'HH:MM'` against a `TIME` column coerces it to a time
  value (`parseTimeSec`); binding a string against an `INT` id column
  coerces it to the number given by its longest digit prefix, `0` when there
  is none (`sqlCoerceNat`).
* A JSON body field is `Option α`: `none` models the field being
  `null`/absent (callers of these endpoints pass `null` for fields they do
  not set; `mysql2` rejects `undefined` bind parameters outright, so an
  absent field behaves as `null` wherever it reaches a query).  JS truthiness
  of such a field is `optTruthy` (`none` and the empty string are falsy).
* Rows of a table are a `List` of a structure holding exactly the columns
  the claims touch; `INSERT` appends, `UPDATE ... WHERE` maps over the list.
-/

/-! ## JS string primitives -/

/-- JS `<` on strings: lexicographic comparison of code units. -/
def charListLt : List Char → List Char → Bool
  | [], [] => false
  | [], _ :: _ => true
  | _ :: _, [] => false
  | a :: as, b :: bs =>
    if a.toNat < b.toNat then true
    else if b.toNat < a.toNat then false
    else charListLt as bs

/-- First occurrence of the nonempty separator `sep` in `s`:
`some (before, after)`, or `none` when `sep` does not occur. -/
def findSplit (sep : List Char) : List Char → Option (List Char × List Char)
  | [] => none
  | c :: rest =>
    if sep.isPrefixOf (c :: rest) then some ([], List.drop (sep.length - 1) rest)
    else match findSplit sep rest with
      | none => none
      | some (pre, post) => some (c :: pre, post)

/-- JS `s.split(sep)[0]`: the part before the first occurrence of `sep`
(`s` itself when `sep` does not occur). -/
def splitHead (sep s : List Char) : List Char :=
  match findSplit sep s with
  | none => s
  | some (pre, _) => pre

/-- JS `s.split(sep)[1]`: the part between the first and second occurrence of
`sep` (`none` when `sep` does not occur, i.e. JS `undefined`). -/
def splitSecond (sep s : List Char) : Option (List Char) :=
  (findSplit sep s).map fun p => splitHead sep p.2

/-- JS `s.replace(pat, rep)` with a string pattern: replaces the first
occurrence of `pat` only, and is the identity when `pat` does not occur. -/
def replaceFirst (s pat rep : List Char) : List Char :=
  match findSplit pat s with
  | none => s
  | some (pre, post) => pre ++ rep ++ post

/-- JS `s.trim()` (the strings handled here are ASCII). -/
def jsTrim (s : List Char) : List Char :=
  ((s.dropWhile Char.isWhitespace).reverse.dropWhile Char.isWhitespace).reverse

/-- Numeric value of a decimal digit character. -/
def digitVal (c : Char) : Nat := c.toNat - 48

/-- JS `parseInt(s, 10)` restricted to the non-negative inputs that occur
here: value of the leading run of digits, `none` (= JS `NaN`) when `s` does
not start with a digit. -/
def jsParseInt (s : List Char) : Option Nat :=
  let ds := s.takeWhile Char.isDigit
  if ds = [] then none else some (ds.foldl (fun a c => 10 * a + digitVal c) 0)

/-- JS `String(n).padStart(2, '0')`. -/
def padStart2 (s : List Char) : List Char :=
  if 2 ≤ s.length then s else List.replicate (2 - s.length) '0' ++ s

/-- Truthiness of a JSON string field: `null`/absent and `''` are falsy. -/
def optTruthy : Option (List Char) → Bool
  | none => false
  | some s => s ≠ []

/-! ## SQL value coercions -/

/-- MySQL coercion of a string to a number when compared against an
integer column, restricted to the non-negative inputs that occur here:
the value of the longest digit prefix, `0` when there is none. -/
def sqlCoerceNat (s : List Char) : Nat :=
  (s.takeWhile Char.isDigit).foldl (fun a c => 10 * a + digitVal c) 0

/-- MySQL coercion of an `'H:MM'` or `'HH:MM'` string (as admitted by the
endpoints' format check) to a `TIME` value, in seconds since midnight.
Unused shapes map to 0. -/
def parseTimeSec (s : List Char) : Nat :=
  match s with
  | [h, _, m1, m2] => digitVal h * 3600 + (digitVal m1 * 10 + digitVal m2) * 60
  | [h1, h2, _, m1, m2] =>
      (digitVal h1 * 10 + digitVal h2) * 3600 + (digitVal m1 * 10 + digitVal m2) * 60
  | _ => 0

/-- Rendering of a `TIME` value as the `'HH:MM:SS'` string `mysql2` hands
back to JS for a `TIME` column. -/
def timeToHHMMSS (t : Nat) : List Char :=
  padStart2 (Nat.toDigits 10 (t / 3600)) ++ ':' ::
    padStart2 (Nat.toDigits 10 (t % 3600 / 60)) ++ ':' ::
    padStart2 (Nat.toDigits 10 (t % 60))

/-! ## OTP store (src/services/otpService.js)

The store is the module-level `Map` keyed by normalized phone number; it is
modelled as an association list in insertion order (`Map.set` of a present
key replaces its value in place, of an absent key appends). -/

structure OtpEntry where
  otp : List Char
  expiresAt : Nat
  attempts : Nat
  deriving DecidableEq, Repr, Inhabited

/-- The in-memory `otpStorage` map. -/
abbrev OtpStore := List (List Char × OtpEntry)

/-- JS `Map.prototype.get`. -/
def mapGet (k : List Char) (m : OtpStore) : Option OtpEntry :=
  match m with
  | [] => none
  | (k', v) :: rest => if k' = k then some v else mapGet k rest

/-- JS `Map.prototype.set`: replace in place, or append a new key. -/
def mapSet (k : List Char) (v : OtpEntry) (m : OtpStore) : OtpStore :=
  match m with
  | [] => [(k, v)]
  | (k', v') :: rest => if k' = k then (k, v) :: rest else (k', v') :: mapSet k v rest

/-- JS `Map.prototype.delete`. -/
def mapDelete (k : List Char) (m : OtpStore) : OtpStore :=
  match m with
  | [] => []
  | (k', v') :: rest => if k' = k then rest else (k', v') :: mapDelete k rest

/-- Well-formedness of the modelled `Map`: keys are pairwise distinct
(a JS `Map` cannot hold a key twice). -/
def KeysNodup (m : OtpStore) : Prop := (m.map Prod.fst).Nodup

instance (m : OtpStore) : Decidable (KeysNodup m) :=
  inferInstanceAs (Decidable (List.Nodup _))

/-- Phone normalization used by `sendOTP`/`verifyOTP`: prepend `'+'` unless
the string already starts with it. -/
def normalizePhone (p : List Char) : List Char :=
  if ['+'].isPrefixOf p then p else '+' :: p

/-- The outcomes of `verifyOTP`, one per returned message. `mismatch k`
carries the reported number of remaining attempts
(`Invalid OTP. k attempts remaining`). -/
inductive VerifyResult where
  | notFound
  | expired
  | attemptsExceeded
  | success
  | mismatch (remaining : Nat)
  deriving DecidableEq, Repr

/-- `verifyOTP(phoneNumber, otp)` of src/services/otpService.js, with the
current `Date.now()` and the store passed explicitly; returns the outcome
and the store after the call. -/
def verifyOTP (now : Nat) (store : OtpStore) (phoneNumber otp : List Char) :
    VerifyResult × OtpStore :=
  let formattedPhone := normalizePhone phoneNumber
  match mapGet formattedPhone store with
  | none => (.notFound, store)
  | some storedData =>
    if storedData.expiresAt < now then
      (.expired, mapDelete formattedPhone store)
    else if 3 ≤ storedData.attempts then
      (.attemptsExceeded, mapDelete formattedPhone store)
    else if storedData.otp = otp then
      (.success, mapDelete formattedPhone store)
    else
      let newData : OtpEntry :=
        { storedData with attempts := storedData.attempts + 1 }
      (.mismatch (3 - newData.attempts), mapSet formattedPhone newData store)

/-! Association-list lemmas for the store operations. -/

theorem mapGet_mapSet_self (k : List Char) (v : OtpEntry) (m : OtpStore) :
    mapGet k (mapSet k v m) = some v := by
  induction m with
  | nil => simp [mapGet, mapSet]
  | cons hd tl ih =>
    obtain ⟨k', v'⟩ := hd
    by_cases h : k' = k
    · simp [mapGet, mapSet, h]
    · simp [mapGet, mapSet, h, ih]

theorem mapGet_eq_none_of_not_mem (k : List Char) (m : OtpStore)
    (h : k ∉ m.map Prod.fst) : mapGet k m = none := by
  induction m with
  | nil => rfl
  | cons hd tl ih =>
    obtain ⟨k', v'⟩ := hd
    simp only [List.map_cons, List.mem_cons] at h
    push_neg at h
    simp [mapGet, Ne.symm h.1, ih h.2]

theorem mapGet_mapDelete_self (k : List Char) (m : OtpStore)
    (hm : KeysNodup m) : mapGet k (mapDelete k m) = none := by
  induction m with
  | nil => rfl
  | cons hd tl ih =>
    obtain ⟨k', v'⟩ := hd
    simp only [KeysNodup, List.map_cons, List.nodup_cons] at hm
    by_cases h : k' = k
    · subst h
      simp only [mapDelete, if_pos rfl]
      exact mapGet_eq_none_of_not_mem _ _ hm.1
    · simp [mapGet, mapDelete, h, ih hm.2]

theorem not_mem_keys_mapSet (k' k : List Char) (v : OtpEntry) (m : OtpStore)
    (hmem : k' ∉ m.map Prod.fst) (hne : k' ≠ k) :
    k' ∉ (mapSet k v m).map Prod.fst := by
  induction m with
  | nil => simpa [mapSet] using hne
  | cons hd tl ih =>
    obtain ⟨k2, v2⟩ := hd
    simp only [List.map_cons, List.mem_cons] at hmem
    push_neg at hmem
    by_cases h2 : k2 = k
    · subst h2
      simp only [mapSet, eq_self_iff_true, if_true, List.map_cons, List.mem_cons, not_or]
      exact ⟨hne, hmem.2⟩
    · simp only [mapSet, if_neg h2, List.map_cons, List.mem_cons, not_or]
      exact ⟨hmem.1, ih hmem.2⟩

theorem keysNodup_mapSet (k : List Char) (v : OtpEntry) (m : OtpStore)
    (hm : KeysNodup m) : KeysNodup (mapSet k v m) := by
  induction m with
  | nil => simp [KeysNodup, mapSet]
  | cons hd tl ih =>
    obtain ⟨k', v'⟩ := hd
    simp only [KeysNodup, List.map_cons, List.nodup_cons] at hm
    by_cases h : k' = k
    · subst h
      simp only [KeysNodup, mapSet, eq_self_iff_true, if_true, List.map_cons,
        List.nodup_cons]
      exact hm
    · simp only [KeysNodup, mapSet, if_neg h, List.map_cons, List.nodup_cons]
      exact ⟨not_mem_keys_mapSet k' k v tl hm.1 h, ih hm.2⟩

/-! Branch computation lemmas for `verifyOTP`. -/

theorem verifyOTP_mismatch_step (now : Nat) (store : OtpStore)
    (phone w : List Char) (entry : OtpEntry)
    (hget : mapGet (normalizePhone phone) store = some entry)
    (hexp : now ≤ entry.expiresAt) (hatt : entry.attempts < 3)
    (hw : entry.otp ≠ w) :
    verifyOTP now store phone w =
      (.mismatch (3 - (entry.attempts + 1)),
        mapSet (normalizePhone phone) { entry with attempts := entry.attempts + 1 }
          store) := by
  simp [verifyOTP, hget, Nat.not_lt.mpr hexp, Nat.not_le.mpr hatt, hw]

theorem verifyOTP_exceeded_step (now : Nat) (store : OtpStore)
    (phone code : List Char) (entry : OtpEntry)
    (hget : mapGet (normalizePhone phone) store = some entry)
    (hexp : now ≤ entry.expiresAt) (hatt : 3 ≤ entry.attempts) :
    verifyOTP now store phone code =
      (.attemptsExceeded, mapDelete (normalizePhone phone) store) := by
  simp [verifyOTP, hget, Nat.not_lt.mpr hexp, hatt]

theorem verifyOTP_success_step (now : Nat) (store : OtpStore)
    (phone : List Char) (entry : OtpEntry)
    (hget : mapGet (normalizePhone phone) store = some entry)
    (hexp : now ≤ entry.expiresAt) (hatt : entry.attempts < 3) :
    verifyOTP now store phone entry.otp =
      (.success, mapDelete (normalizePhone phone) store) := by
  simp [verifyOTP, hget, Nat.not_lt.mpr hexp, Nat.not_le.mpr hatt]

theorem verifyOTP_notFound_step (now : Nat) (store : OtpStore)
    (phone code : List Char)
    (hget : mapGet (normalizePhone phone) store = none) :
    verifyOTP now store phone code = (.notFound, store) := by
  simp [verifyOTP, hget]

/-- A sequence of `verifyOTP` calls for one phone, given as
`(Date.now(), submitted code)` pairs; returns the outcomes in order and the
final store. -/
def verifyTrace (store : OtpStore) (phone : List Char) :
    List (Nat × List Char) → List VerifyResult × OtpStore
  | [] => ([], store)
  | (t, code) :: rest =>
    let r := verifyOTP t store phone code
    let rs := verifyTrace r.2 phone rest
    (r.1 :: rs.1, rs.2)

/-- **C3.** For a live, unexpired OTP entry as created by `sendOTP`
(`attempts = 0`), three consecutive wrong `verifyOTP` calls report
`Invalid OTP. 2/1/0 attempts remaining` (each wrong attempt incrementing the
counter by exactly one), and the fourth call fails with
`Maximum verification attempts exceeded` and deletes the entry — even when
the code submitted on the fourth call is arbitrary, in particular the
correct one. -/
theorem C3_fourth_verify_attempts_exceeded
    (store : OtpStore) (phone w1 w2 w3 c4 : List Char) (entry : OtpEntry)
    (t1 t2 t3 t4 : Nat)
    (hwf : KeysNodup store)
    (hget : mapGet (normalizePhone phone) store = some entry)
    (hatt : entry.attempts = 0)
    (hw1 : entry.otp ≠ w1) (hw2 : entry.otp ≠ w2) (hw3 : entry.otp ≠ w3)
    (ht1 : t1 ≤ entry.expiresAt) (ht2 : t2 ≤ entry.expiresAt)
    (ht3 : t3 ≤ entry.expiresAt) (ht4 : t4 ≤ entry.expiresAt) :
    (verifyTrace store phone [(t1, w1), (t2, w2), (t3, w3), (t4, c4)]).1 =
      [.mismatch 2, .mismatch 1, .mismatch 0, .attemptsExceeded] ∧
    mapGet (normalizePhone phone)
      (verifyTrace store phone [(t1, w1), (t2, w2), (t3, w3), (t4, c4)]).2 =
      none := by
  set key := normalizePhone phone with hkey
  set e1 : OtpEntry := { entry with attempts := 1 } with he1
  set e2 : OtpEntry := { entry with attempts := 2 } with he2
  set e3 : OtpEntry := { entry with attempts := 3 } with he3
  have h1 : verifyOTP t1 store phone w1 = (.mismatch 2, mapSet key e1 store) := by
    rw [verifyOTP_mismatch_step t1 store phone w1 entry hget ht1 (by omega) hw1]
    simp [hatt, he1]
  have hget1 : mapGet key (mapSet key e1 store) = some e1 := mapGet_mapSet_self ..
  have h2 : verifyOTP t2 (mapSet key e1 store) phone w2 =
      (.mismatch 1, mapSet key e2 (mapSet key e1 store)) := by
    rw [verifyOTP_mismatch_step t2 _ phone w2 e1 hget1 ht2 (by simp [he1, hatt]) hw2]
    simp [he1, he2, hatt]
  have hget2 : mapGet key (mapSet key e2 (mapSet key e1 store)) = some e2 :=
    mapGet_mapSet_self ..
  have h3 : verifyOTP t3 (mapSet key e2 (mapSet key e1 store)) phone w3 =
      (.mismatch 0, mapSet key e3 (mapSet key e2 (mapSet key e1 store))) := by
    rw [verifyOTP_mismatch_step t3 _ phone w3 e2 hget2 ht3 (by simp [he2, hatt]) hw3]
    simp [he2, he3, hatt]
  have hget3 : mapGet key (mapSet key e3 (mapSet key e2 (mapSet key e1 store))) =
      some e3 := mapGet_mapSet_self ..
  have h4 : verifyOTP t4 (mapSet key e3 (mapSet key e2 (mapSet key e1 store)))
      phone c4 =
      (.attemptsExceeded,
        mapDelete key (mapSet key e3 (mapSet key e2 (mapSet key e1 store)))) := by
    exact verifyOTP_exceeded_step t4 _ phone c4 e3 hget3 ht4 (by simp [he3])
  have hwf3 : KeysNodup (mapSet key e3 (mapSet key e2 (mapSet key e1 store))) :=
    keysNodup_mapSet _ _ _ (keysNodup_mapSet _ _ _ (keysNodup_mapSet _ _ _ hwf))
  simp only [verifyTrace, h1, h2, h3, h4]
  exact ⟨trivial, mapGet_mapDelete_self _ _ hwf3⟩

/-- Witness for C3 at a concrete store: phone `971501234567` (normalized to
`+971501234567`), code `123456`, three wrong codes then the correct one. -/
theorem C3_fourth_verify_attempts_exceeded_witness :
    (verifyTrace [("+971501234567".data, ⟨"123456".data, 1000, 0⟩)]
        "971501234567".data
        [(10, "000000".data), (20, "111111".data), (30, "222222".data),
          (40, "123456".data)]).1 =
      [.mismatch 2, .mismatch 1, .mismatch 0, .attemptsExceeded] ∧
    mapGet (normalizePhone "971501234567".data)
      (verifyTrace [("+971501234567".data, ⟨"123456".data, 1000, 0⟩)]
        "971501234567".data
        [(10, "000000".data), (20, "111111".data), (30, "222222".data),
          (40, "123456".data)]).2 = none :=
  C3_fourth_verify_attempts_exceeded _ _ _ _ _ _ ⟨"123456".data, 1000, 0⟩
    10 20 30 40 (by decide) (by decide) rfl (by decide) (by decide) (by decide)
    (by decide) (by decide) (by decide) (by decide)

/-- **C4.** For a live, unexpired OTP entry with fewer than 3 attempts,
`verifyOTP` with the correct code succeeds and consumes the entry: an
immediately following call for the same phone with the same code fails with
`OTP not found or expired` (not-found), and the store is unchanged by that
second call. -/
theorem C4_correct_code_succeeds_once
    (store : OtpStore) (phone : List Char) (entry : OtpEntry) (t1 t2 : Nat)
    (hwf : KeysNodup store)
    (hget : mapGet (normalizePhone phone) store = some entry)
    (hatt : entry.attempts < 3)
    (ht1 : t1 ≤ entry.expiresAt) :
    (verifyOTP t1 store phone entry.otp).1 = .success ∧
    mapGet (normalizePhone phone) (verifyOTP t1 store phone entry.otp).2 = none ∧
    verifyOTP t2 (verifyOTP t1 store phone entry.otp).2 phone entry.otp =
      (.notFound, (verifyOTP t1 store phone entry.otp).2) := by
  have h1 := verifyOTP_success_step t1 store phone entry hget ht1 hatt
  have hnone : mapGet (normalizePhone phone)
      (verifyOTP t1 store phone entry.otp).2 = none := by
    rw [h1]
    exact mapGet_mapDelete_self _ _ hwf
  exact ⟨by rw [h1], hnone, verifyOTP_notFound_step t2 _ phone entry.otp hnone⟩

/-- Witness for C4 at a concrete store. -/
theorem C4_correct_code_succeeds_once_witness :
    (verifyOTP 10 [("+971501234567".data, ⟨"123456".data, 1000, 0⟩)]
        "+971501234567".data "123456".data).1 = .success ∧
    mapGet (normalizePhone "+971501234567".data)
      (verifyOTP 10 [("+971501234567".data, ⟨"123456".data, 1000, 0⟩)]
        "+971501234567".data "123456".data).2 = none ∧
    verifyOTP 20
      (verifyOTP 10 [("+971501234567".data, ⟨"123456".data, 1000, 0⟩)]
        "+971501234567".data "123456".data).2
      "+971501234567".data "123456".data =
      (.notFound,
        (verifyOTP 10 [("+971501234567".data, ⟨"123456".data, 1000, 0⟩)]
          "+971501234567".data "123456".data).2) :=
  C4_correct_code_succeeds_once _ _ ⟨"123456".data, 1000, 0⟩ 10 20
    (by decide) (by decide) (by decide) (by decide)

/-! ## Appointment time normalization (POST /api/user/appointments)

`extractStartTime` / `convertTo24Hour` as defined inline in the create
appointment handler. -/

/-- The handler's canonical-format check `/^\d{2}:\d{2}(:\d{2})?$/`. -/
def matchesCanonicalTime : List Char → Bool
  | [a, b, c, d, e] => a.isDigit && b.isDigit && c = ':' && d.isDigit && e.isDigit
  | [a, b, c, d, e, f, g, h] =>
      a.isDigit && b.isDigit && c = ':' && d.isDigit && e.isDigit &&
        f = ':' && g.isDigit && h.isDigit
  | _ => false

/-- `convertTo24Hour(time12h)`: split `'H:MM AM/PM'` into time and modifier,
map a `12` hour to `00`, add 12 in the `PM` branch, and left-pad the hour to
two digits. -/
def convertTo24Hour (time12h : List Char) : List Char :=
  let trimmed := jsTrim time12h
  let time := splitHead [' '] trimmed
  let modifier := splitSecond [' '] trimmed
  let hours0 := splitHead [':'] time
  let minutes := (splitSecond [':'] time).getD "undefined".data
  let hours1 := if hours0 = "12".data then "00".data else hours0
  let hoursStr :=
    if modifier = some "PM".data then
      match jsParseInt hours1 with
      | none => "NaN".data
      | some n => Nat.toDigits 10 (n + 12)
    else hours1
  padStart2 hoursStr ++ ':' :: (minutes ++ [':', '0', '0'])

/-- `extractStartTime(timeInput)`: falsy input returned as is; canonical
`HH:MM[:SS]` returned as is; otherwise the part before `' - '` converted to
24-hour `HH:MM:00`. -/
def extractStartTime (timeInput : List Char) : List Char :=
  if timeInput = [] then timeInput
  else if matchesCanonicalTime timeInput then timeInput
  else convertTo24Hour (splitHead " - ".data timeInput)

/-- **C5.** The appointment-time normalizer returns every input matching the
canonical two-digit `HH:MM`/`HH:MM:SS` pattern unchanged, and converts a
12-hour display range by extracting its start time: `2:00 PM - 2:30 PM` to
`14:00:00`, `12:00 AM - 12:30 AM` to `00:00:00`, and `12:15 PM - 12:45 PM`
to `12:15:00`. -/
theorem C5_extractStartTime_normalization :
    (∀ s : List Char, matchesCanonicalTime s = true → extractStartTime s = s) ∧
    extractStartTime "2:00 PM - 2:30 PM".data = "14:00:00".data ∧
    extractStartTime "12:00 AM - 12:30 AM".data = "00:00:00".data ∧
    extractStartTime "12:15 PM - 12:45 PM".data = "12:15:00".data := by
  refine ⟨fun s hs => ?_, by decide, by decide, by decide⟩
  have hne : s ≠ [] := by
    intro h
    rw [h] at hs
    simp [matchesCanonicalTime] at hs
  simp [extractStartTime, hne, hs]

/-- Witness for the universally quantified part of C5 at the canonical
inputs `14:00` and `09:30:00`. -/
theorem C5_extractStartTime_normalization_witness :
    extractStartTime "14:00".data = "14:00".data ∧
    extractStartTime "09:30:00".data = "09:30:00".data :=
  ⟨C5_extractStartTime_normalization.1 "14:00".data (by decide),
    C5_extractStartTime_normalization.1 "09:30:00".data (by decide)⟩

/-! ## Available time slots (admin create / update endpoints)

`available_time_slots` rows, holding the columns the handlers touch.
`start_time`/`end_time` are `TIME` values (seconds since midnight),
`date` a canonical `YYYY-MM-DD` string, `service_category_id` a nullable
`INT`, `is_available` a nullable `BOOLEAN`, `extra_price` an uninterpreted
`DECIMAL` payload. -/

structure TimeSlot where
  id : Nat
  start_time : Nat
  end_time : Nat
  is_available : Option Bool
  extra_price : List Char
  date : List Char
  service_category_id : Option Nat
  deriving DecidableEq, Repr, Inhabited

/-- The handlers' time format check `/^([01]?[0-9]|2[0-3]):[0-5][0-9]$/`. -/
def isValidHHMM : List Char → Bool
  | [h, c, m1, m2] =>
      h.isDigit && c = ':' && m1.isDigit && m1 ≤ '5' && m2.isDigit
  | [h1, h2, c, m1, m2] =>
      (((h1 = '0' || h1 = '1') && h2.isDigit) || (h1 = '2' && h2.isDigit && h2 ≤ '3')) &&
        c = ':' && m1.isDigit && m1 ≤ '5' && m2.isDigit
  | _ => false

/-- The three-disjunct overlap test of the create/update `SELECT`, with the
existing row's interval `[s1, e1)` and the requested interval `[s2, e2)`:
`(start_time <= s2 AND end_time > s2) OR (start_time < e2 AND end_time >= e2)
OR (start_time >= s2 AND end_time <= e2)`. -/
def overlapSqlB (s1 e1 s2 e2 : Nat) : Bool :=
  (s1 ≤ s2 && s2 < e1) || (s1 < e2 && e2 ≤ e1) || (s2 ≤ s1 && e1 ≤ e2)

/-- The general half-open overlap rule of the spec: `[s1,e1)` and `[s2,e2)`
overlap iff `s1 < e2` and `s2 < e1`. -/
def overlapsHalfOpen (s1 e1 s2 e2 : Nat) : Prop := s1 < e2 ∧ s2 < e1

instance (s1 e1 s2 e2 : Nat) : Decidable (overlapsHalfOpen s1 e1 s2 e2) :=
  inferInstanceAs (Decidable (_ ∧ _))

/-- For valid (nonempty) intervals on both sides, the three tested
disjuncts are exactly the general half-open rule. -/
theorem overlapSqlB_iff_halfOpen (s1 e1 s2 e2 : Nat)
    (h1 : s1 < e1) (h2 : s2 < e2) :
    overlapSqlB s1 e1 s2 e2 = true ↔ overlapsHalfOpen s1 e1 s2 e2 := by
  simp only [overlapSqlB, overlapsHalfOpen, Bool.or_eq_true, Bool.and_eq_true,
    decide_eq_true_eq]
  omega

/-- One direction needs no validity at all: a half-open overlap always
triggers one of the three disjuncts. -/
theorem overlapSqlB_of_halfOpen (s1 e1 s2 e2 : Nat)
    (h : overlapsHalfOpen s1 e1 s2 e2) : overlapSqlB s1 e1 s2 e2 = true := by
  simp only [overlapsHalfOpen] at h
  simp only [overlapSqlB, Bool.or_eq_true, Bool.and_eq_true, decide_eq_true_eq]
  omega

/-- The category scope predicate of the create `SELECT`:
`(service_category_id = ? OR (service_category_id IS NULL AND ? IS NULL))`
under SQL `NULL` semantics (`NULL = x` never holds). -/
def scopeMatchesB (reqCat rowCat : Option Nat) : Bool :=
  match reqCat with
  | some c => rowCat = some c
  | none => rowCat.isNone

theorem scopeMatchesB_iff (reqCat rowCat : Option Nat) :
    scopeMatchesB reqCat rowCat = true ↔ rowCat = reqCat := by
  cases reqCat with
  | none => simp [scopeMatchesB, Option.isNone_iff_eq_none]
  | some c => simp [scopeMatchesB]

/-- Body of `POST /api/admin/available-time-slots` (fields are JSON
`null`-or-value; `extra_price` already carries its destructuring
default `0`). -/
structure SlotCreateReq where
  start_time : Option (List Char)
  end_time : Option (List Char)
  is_available : Option Bool
  extra_price : List Char
  date : Option (List Char)
  service_category_id : Option Nat
  deriving DecidableEq, Repr

inductive SlotCreateResult where
  | missingFields
  | badFormat
  | badOrder
  | conflict
  | created (store : List TimeSlot) (slot : TimeSlot)
  deriving DecidableEq, Repr

/-- The per-row predicate of the create endpoint's overlap `SELECT`. -/
def createOverlapPred (date : List Char) (reqCat : Option Nat) (s2 e2 : Nat)
    (row : TimeSlot) : Bool :=
  row.date = date && row.is_available = some true &&
    scopeMatchesB reqCat row.service_category_id &&
    overlapSqlB row.start_time row.end_time s2 e2

/-- `AUTO_INCREMENT` id for an insert. -/
def nextSlotId (store : List TimeSlot) : Nat :=
  (store.map TimeSlot.id).foldr max 0 + 1

/-- `POST /api/admin/available-time-slots`: required-field check, `HH:MM`
format check, JS string comparison `start_time >= end_time`, the overlap
`SELECT`, then the `INSERT`. -/
def createTimeSlot (store : List TimeSlot) (req : SlotCreateReq) :
    SlotCreateResult :=
  if !optTruthy req.start_time || !optTruthy req.end_time || !optTruthy req.date then
    .missingFields
  else
    let s := req.start_time.getD []
    let e := req.end_time.getD []
    let d := req.date.getD []
    if !isValidHHMM s || !isValidHHMM e then .badFormat
    else if !charListLt s e then .badOrder
    else if store.any (createOverlapPred d req.service_category_id
        (parseTimeSec s) (parseTimeSec e)) then .conflict
    else
      let slot : TimeSlot :=
        { id := nextSlotId store, start_time := parseTimeSec s,
          end_time := parseTimeSec e, is_available := req.is_available,
          extra_price := req.extra_price, date := d,
          service_category_id := req.service_category_id }
      .created (store ++ [slot]) slot

theorem isValidHHMM_ne_nil (s : List Char) (h : isValidHHMM s = true) : s ≠ [] := by
  intro hnil
  rw [hnil] at h
  simp [isValidHHMM] at h

theorem createOverlapPred_iff (d : List Char) (rc : Option Nat) (s2 e2 : Nat)
    (t : TimeSlot) (hval : t.start_time < t.end_time) (h2 : s2 < e2) :
    createOverlapPred d rc s2 e2 t = true ↔
      t.is_available = some true ∧ t.date = d ∧ t.service_category_id = rc ∧
        overlapsHalfOpen t.start_time t.end_time s2 e2 := by
  simp only [createOverlapPred, Bool.and_eq_true, decide_eq_true_eq,
    scopeMatchesB_iff, overlapSqlB_iff_halfOpen _ _ _ _ hval h2]
  tauto

/-- The store of the spec's worked example: a single available slot
`[09:00, 09:30)` on 2025-03-15 with no category. -/
def demoSlotStore : List TimeSlot :=
  [{ id := 1, start_time := 32400, end_time := 34200, is_available := some true,
     extra_price := "0.00".data, date := "2025-03-15".data,
     service_category_id := none }]

/-- Create request for `[09:15, 09:45)` on the same date and scope. -/
def demoCreate0915 : SlotCreateReq :=
  { start_time := some "09:15".data, end_time := some "09:45".data,
    is_available := some true, extra_price := "0.00".data,
    date := some "2025-03-15".data, service_category_id := none }

/-- Create request for the touching slot `[09:30, 10:00)`. -/
def demoCreate0930 : SlotCreateReq :=
  { start_time := some "09:30".data, end_time := some "10:00".data,
    is_available := some true, extra_price := "0.00".data,
    date := some "2025-03-15".data, service_category_id := none }

/-- **C1.** A create request passing the `HH:MM` format check whose
`start_time` is below its `end_time` is rejected with the conflict error iff
some stored slot with `is_available = TRUE` on the same date and in the same
category scope (same id, or both `NULL`) overlaps it under the half-open rule
`s1 < e2 AND s2 < e1` — the three tested disjuncts being equivalent to that
rule for valid intervals; in particular, next to an existing available
`[09:00, 09:30)`, creating `[09:15, 09:45)` is rejected while the touching
`[09:30, 10:00)` is accepted and inserted. -/
theorem C1_create_slot_conflict_iff_overlap
    (store : List TimeSlot) (req : SlotCreateReq) (s e d : List Char)
    (hs : req.start_time = some s) (he : req.end_time = some e)
    (hd : req.date = some d) (hdne : d ≠ [])
    (hvs : isValidHHMM s = true) (hve : isValidHHMM e = true)
    (hlt : charListLt s e = true)
    (hnum : parseTimeSec s < parseTimeSec e)
    (hvalid : ∀ t ∈ store, t.start_time < t.end_time) :
    (createTimeSlot store req = .conflict ↔
      ∃ t ∈ store, t.is_available = some true ∧ t.date = d ∧
        t.service_category_id = req.service_category_id ∧
        overlapsHalfOpen t.start_time t.end_time (parseTimeSec s)
          (parseTimeSec e)) ∧
    createTimeSlot demoSlotStore demoCreate0915 = .conflict ∧
    createTimeSlot demoSlotStore demoCreate0930 =
      .created (demoSlotStore ++
        [{ id := 2, start_time := 34200, end_time := 36000,
           is_available := some true, extra_price := "0.00".data,
           date := "2025-03-15".data, service_category_id := none }])
        { id := 2, start_time := 34200, end_time := 36000,
          is_available := some true, extra_price := "0.00".data,
          date := "2025-03-15".data, service_category_id := none } := by
  refine ⟨?_, by decide, by decide⟩
  have hsne := isValidHHMM_ne_nil s hvs
  have hene := isValidHHMM_ne_nil e hve
  by_cases hany : store.any (createOverlapPred d req.service_category_id
      (parseTimeSec s) (parseTimeSec e)) = true
  · obtain ⟨t, ht, hpred⟩ := List.any_eq_true.mp hany
    have := (createOverlapPred_iff d req.service_category_id _ _ t
      (hvalid t ht) hnum).mp hpred
    constructor
    · intro _
      exact ⟨t, ht, this⟩
    · intro _
      simp [createTimeSlot, hs, he, hd, optTruthy, hsne, hene, hdne, hvs, hve,
        hlt, hany]
  · constructor
    · intro hc
      exfalso
      simp [createTimeSlot, hs, he, hd, optTruthy, hsne, hene, hdne, hvs, hve,
        hlt, hany] at hc
    · rintro ⟨t, ht, hav, hdate, hscope, hov⟩
      exfalso
      exact hany (List.any_eq_true.mpr ⟨t, ht,
        (createOverlapPred_iff d req.service_category_id _ _ t
          (hvalid t ht) hnum).mpr ⟨hav, hdate, hscope, hov⟩⟩)

/-- Witness for C1: the general conflict-iff-overlap equivalence applied to
the worked example's store and the `[09:15, 09:45)` request. -/
theorem C1_create_slot_conflict_iff_overlap_witness :
    createTimeSlot demoSlotStore demoCreate0915 = .conflict ↔
      ∃ t ∈ demoSlotStore, t.is_available = some true ∧
        t.date = "2025-03-15".data ∧
        t.service_category_id = demoCreate0915.service_category_id ∧
        overlapsHalfOpen t.start_time t.end_time
          (parseTimeSec "09:15".data) (parseTimeSec "09:45".data) :=
  (C1_create_slot_conflict_iff_overlap demoSlotStore demoCreate0915
    "09:15".data "09:45".data "2025-03-15".data rfl rfl rfl (by decide)
    (by decide) (by decide) (by decide) (by decide) (by decide)).1

/-- Body of `PUT /api/admin/available-time-slots/:id`. -/
structure SlotUpdateReq where
  start_time : Option (List Char)
  end_time : Option (List Char)
  is_available : Option Bool
  extra_price : Option (List Char)
  service_category_id : Option Nat
  deriving DecidableEq, Repr

inductive SlotUpdateResult where
  | notFound
  | badFormat
  | badOrder
  | conflict
  | updated (store : List TimeSlot) (slot : TimeSlot)
  deriving DecidableEq, Repr

/-- The per-row predicate of the update endpoint's overlap `SELECT`:
`id != ? AND date = ? AND is_available = 1` plus the three disjuncts —
note: no category condition. -/
def updateOverlapPred (id : Nat) (date : List Char) (s2 e2 : Nat)
    (row : TimeSlot) : Bool :=
  row.id ≠ id && row.date = date && row.is_available = some true &&
    overlapSqlB row.start_time row.end_time s2 e2

/-- The update's `UPDATE ... SET` row: `COALESCE(?, col)` for the time,
availability and price fields, but `service_category_id = ?` set directly
from the request. -/
def applySlotUpdate (cur : TimeSlot) (req : SlotUpdateReq) : TimeSlot :=
  { cur with
    start_time :=
      match req.start_time with
      | some s => parseTimeSec s
      | none => cur.start_time
    end_time :=
      match req.end_time with
      | some e => parseTimeSec e
      | none => cur.end_time
    is_available :=
      match req.is_available with
      | some b => some b
      | none => cur.is_available
    extra_price := req.extra_price.getD cur.extra_price
    service_category_id := req.service_category_id }

/-- `PUT /api/admin/available-time-slots/:id`: fetch the row; when a time
field is (truthily) present, validate the new pair — JS `||`-falling back to
the stored `TIME` rendered as `'HH:MM:SS'` — and run the overlap `SELECT`
against all *other* rows of the same date; then apply the coalesce-style
`UPDATE`. -/
def updateTimeSlot (store : List TimeSlot) (id : Nat) (req : SlotUpdateReq) :
    SlotUpdateResult :=
  match store.find? (fun t => t.id = id) with
  | none => .notFound
  | some currentSlot =>
    let newSlot := applySlotUpdate currentSlot req
    let outStore := store.map fun t => if t.id = id then newSlot else t
    if optTruthy req.start_time || optTruthy req.end_time then
      let newStartTime :=
        if optTruthy req.start_time then req.start_time.getD []
        else timeToHHMMSS currentSlot.start_time
      let newEndTime :=
        if optTruthy req.end_time then req.end_time.getD []
        else timeToHHMMSS currentSlot.end_time
      if !isValidHHMM newStartTime || !isValidHHMM newEndTime then .badFormat
      else if !charListLt newStartTime newEndTime then .badOrder
      else if store.any (updateOverlapPred id currentSlot.date
          (parseTimeSec newStartTime) (parseTimeSec newEndTime)) then .conflict
      else .updated outStore newSlot
    else .updated outStore newSlot

theorem updateOverlapPred_iff (id : Nat) (d : List Char) (s2 e2 : Nat)
    (t : TimeSlot) (hval : t.start_time < t.end_time) (h2 : s2 < e2) :
    updateOverlapPred id d s2 e2 t = true ↔
      t.id ≠ id ∧ t.date = d ∧ t.is_available = some true ∧
        overlapsHalfOpen t.start_time t.end_time s2 e2 := by
  simp only [updateOverlapPred, Bool.and_eq_true, decide_eq_true_eq,
    overlapSqlB_iff_halfOpen _ _ _ _ hval h2]
  tauto

/-- The spec's §3 invariant: among stored *available* slots, no two distinct
rows on the same date and in the same category scope overlap (half-open). -/
def SlotsInvariant (store : List TimeSlot) : Prop :=
  ∀ t1 ∈ store, ∀ t2 ∈ store, t1.id ≠ t2.id →
    t1.is_available = some true → t2.is_available = some true →
    t1.date = t2.date → t1.service_category_id = t2.service_category_id →
    ¬ overlapsHalfOpen t1.start_time t1.end_time t2.start_time t2.end_time

theorem overlapsHalfOpen_symm {s1 e1 s2 e2 : Nat}
    (h : overlapsHalfOpen s1 e1 s2 e2) : overlapsHalfOpen s2 e2 s1 e1 :=
  ⟨h.2, h.1⟩

/-- A successful create preserves the no-overlap invariant: the inserted
interval was checked (via the three disjuncts) against every stored
available slot of the same date and category scope. -/
theorem createTimeSlot_preserves_invariant (store : List TimeSlot)
    (req : SlotCreateReq) (store' : List TimeSlot) (slot : TimeSlot)
    (hinv : SlotsInvariant store)
    (hc : createTimeSlot store req = .created store' slot) :
    SlotsInvariant store' := by
  simp only [createTimeSlot] at hc
  split_ifs at hc with h1 h2 h3 h4
  simp only [SlotCreateResult.created.injEq] at hc
  obtain ⟨hstore', hslot⟩ := hc
  subst hstore'
  intro t1 ht1 t2 ht2 hne hav1 hav2 hdate hscope hov
  rw [List.mem_append, List.mem_singleton] at ht1 ht2
  have hpredFalse : ∀ t ∈ store,
      createOverlapPred (req.date.getD []) req.service_category_id
        (parseTimeSec (req.start_time.getD []))
        (parseTimeSec (req.end_time.getD [])) t = false := by
    intro t ht
    by_contra hcon
    rw [Bool.not_eq_false] at hcon
    exact h4 (List.any_eq_true.mpr ⟨t, ht, hcon⟩)
  rcases ht1 with ht1 | ht1 <;> rcases ht2 with ht2 | ht2
  · exact hinv t1 ht1 t2 ht2 hne hav1 hav2 hdate hscope hov
  · subst ht2
    have := hpredFalse t1 ht1
    rw [createOverlapPred] at this
    simp only [Bool.and_eq_false_iff, decide_eq_false_iff_not] at this
    rcases this with ((hA | hB) | hC) | hD
    · exact hA hdate
    · exact hB hav1
    · exact absurd ((scopeMatchesB_iff _ _).mpr hscope) (by simp [hC])
    · exact absurd (overlapSqlB_of_halfOpen _ _ _ _ hov) (by simp [hD])
  · subst ht1
    have hov' := overlapsHalfOpen_symm hov
    have := hpredFalse t2 ht2
    rw [createOverlapPred] at this
    simp only [Bool.and_eq_false_iff, decide_eq_false_iff_not] at this
    rcases this with ((hA | hB) | hC) | hD
    · exact hA hdate.symm
    · exact hB hav2
    · exact absurd ((scopeMatchesB_iff _ _).mpr hscope.symm) (by simp [hC])
    · exact absurd (overlapSqlB_of_halfOpen _ _ _ _ hov') (by simp [hD])
  · subst ht1
    subst ht2
    exact hne rfl

/-- Two available slots on 2025-03-15 in *different* category scopes:
slot 1 is `[09:00, 10:00)` in category 5, slot 2 is `[13:00, 14:00)` in
category 7. -/
def demoCatStore : List TimeSlot :=
  [{ id := 1, start_time := 32400, end_time := 36000, is_available := some true,
     extra_price := "0.00".data, date := "2025-03-15".data,
     service_category_id := some 5 },
   { id := 2, start_time := 46800, end_time := 50400, is_available := some true,
     extra_price := "0.00".data, date := "2025-03-15".data,
     service_category_id := some 7 }]

/-- Update moving slot 2 (category 7) to `[09:15, 09:45)`, keeping its
category. -/
def demoUpdateReq : SlotUpdateReq :=
  { start_time := some "09:15".data, end_time := some "09:45".data,
    is_available := none, extra_price := none, service_category_id := some 7 }

/-- **C2, counterexample.** The update of slot 2 to `[09:15, 09:45)` is
rejected as an overlap conflict although no *other* slot in the same
category scope (category 7) on that date overlaps it — the only overlap is
with slot 1 in category 5.  The update re-validation is therefore not scoped
to the category, contradicting the claim. -/
theorem C2_counterexample_update_ignores_category_scope :
    updateTimeSlot demoCatStore 2 demoUpdateReq = .conflict ∧
    ∀ t ∈ demoCatStore, t.id = 2 ∨
      ¬(t.is_available = some true ∧ t.date = "2025-03-15".data ∧
        t.service_category_id = some 7 ∧
        overlapsHalfOpen t.start_time t.end_time
          (parseTimeSec "09:15".data) (parseTimeSec "09:45".data)) := by
  decide

/-- **C2, amended.** For an update supplying both time fields (passing the
`HH:MM` check, with new start below new end), the endpoint re-validates the
overlap rule against all *other* slots — excluding the row itself but **not**
restricted to the same category scope: it conflicts iff any other available
slot on the row's date overlaps the new interval half-open.  On success, the
absent fields among `is_available` and `extra_price` are preserved by
`COALESCE` and the date is untouched, but `service_category_id` is always
overwritten with the request's value.  The no-overlap invariant is preserved
by every successful create (but, per the counterexample and the
availability-flip path, not re-established by updates). -/
theorem C2_update_revalidation_amended
    (store : List TimeSlot) (id : Nat) (req : SlotUpdateReq) (cur : TimeSlot)
    (s e : List Char)
    (hfind : store.find? (fun t => t.id = id) = some cur)
    (hs : req.start_time = some s) (he : req.end_time = some e)
    (hvs : isValidHHMM s = true) (hve : isValidHHMM e = true)
    (hlt : charListLt s e = true) (hnum : parseTimeSec s < parseTimeSec e)
    (hvalid : ∀ t ∈ store, t.start_time < t.end_time) :
    (updateTimeSlot store id req = .conflict ↔
      ∃ t ∈ store, t.id ≠ id ∧ t.date = cur.date ∧ t.is_available = some true ∧
        overlapsHalfOpen t.start_time t.end_time (parseTimeSec s)
          (parseTimeSec e)) ∧
    (∀ outStore slot, updateTimeSlot store id req = .updated outStore slot →
      slot.start_time = parseTimeSec s ∧ slot.end_time = parseTimeSec e ∧
      (req.is_available = none → slot.is_available = cur.is_available) ∧
      (∀ b, req.is_available = some b → slot.is_available = some b) ∧
      (req.extra_price = none → slot.extra_price = cur.extra_price) ∧
      slot.date = cur.date ∧
      slot.service_category_id = req.service_category_id ∧
      outStore = store.map fun t => if t.id = id then slot else t) ∧
    (∀ store0 req0 store0' slot0, SlotsInvariant store0 →
      createTimeSlot store0 req0 = .created store0' slot0 →
      SlotsInvariant store0') := by
  have hsne := isValidHHMM_ne_nil s hvs
  have hene := isValidHHMM_ne_nil e hve
  refine ⟨?_, ?_, fun store0 req0 store0' slot0 hi hc =>
    createTimeSlot_preserves_invariant store0 req0 store0' slot0 hi hc⟩
  · by_cases hany : store.any (updateOverlapPred id cur.date
        (parseTimeSec s) (parseTimeSec e)) = true
    · obtain ⟨t, ht, hpred⟩ := List.any_eq_true.mp hany
      have hiff := (updateOverlapPred_iff id cur.date _ _ t
        (hvalid t ht) hnum).mp hpred
      constructor
      · intro _
        exact ⟨t, ht, hiff⟩
      · intro _
        simp [updateTimeSlot, hfind, hs, he, optTruthy, hsne, hene, hvs, hve,
          hlt, hany]
    · constructor
      · intro hc
        exfalso
        simp [updateTimeSlot, hfind, hs, he, optTruthy, hsne, hene, hvs, hve,
          hlt, hany] at hc
      · rintro ⟨t, ht, hne, hdate, hav, hov⟩
        exfalso
        exact hany (List.any_eq_true.mpr ⟨t, ht,
          (updateOverlapPred_iff id cur.date _ _ t (hvalid t ht) hnum).mpr
            ⟨hne, hdate, hav, hov⟩⟩)
  · intro outStore slot hupd
    by_cases hany : store.any (updateOverlapPred id cur.date
        (parseTimeSec s) (parseTimeSec e)) = true
    · exfalso
      simp [updateTimeSlot, hfind, hs, he, optTruthy, hsne, hene, hvs, hve,
        hlt, hany] at hupd
    · simp [updateTimeSlot, hfind, hs, he, optTruthy, hsne, hene, hvs, hve,
        hlt, hany] at hupd
      obtain ⟨hout, hslot⟩ := hupd
      rw [← hout, ← hslot]
      refine ⟨by simp [applySlotUpdate, hs], by simp [applySlotUpdate, he],
        fun hb => by simp [applySlotUpdate, hb],
        fun b hb => by simp [applySlotUpdate, hb],
        fun hp => by simp [applySlotUpdate, hp],
        by simp [applySlotUpdate], by simp [applySlotUpdate], rfl⟩

/-- Witness for the amended C2: the conflict-iff equivalence applied to the
two-category store and the cross-category overlapping update. -/
theorem C2_update_revalidation_amended_witness :
    updateTimeSlot demoCatStore 2 demoUpdateReq = .conflict ↔
      ∃ t ∈ demoCatStore, t.id ≠ 2 ∧ t.date = "2025-03-15".data ∧
        t.is_available = some true ∧
        overlapsHalfOpen t.start_time t.end_time
          (parseTimeSec "09:15".data) (parseTimeSec "09:45".data) :=
  (C2_update_revalidation_amended demoCatStore 2 demoUpdateReq
    { id := 2, start_time := 46800, end_time := 50400,
      is_available := some true, extra_price := "0.00".data,
      date := "2025-03-15".data, service_category_id := some 7 }
    "09:15".data "09:45".data (by decide) rfl rfl (by decide) (by decide)
    (by decide) (by decide) (by decide)).1

/-! ## Public listing endpoints (GET /api/available-dates,
GET /api/available-time-slots) -/

/-- `available_dates` rows (the `DATE_FORMAT` aliases of the `SELECT` are
presentation-only renderings of `date` and are not modelled). -/
structure AvailableDate where
  id : Nat
  date : List Char
  service_category_id : Option Nat
  is_available : Option Bool
  max_appointments : Nat
  deriving DecidableEq, Repr, Inhabited

/-- The category filter appended by both public listings:
`if (categoryId)` (JS truthiness — absent and `''` are falsy), then
`categoryId === 'null' || categoryId === ''` selects `IS NULL`, else
`service_category_id = ?` with the string coerced against the `INT`
column. -/
def categoryFilterB (categoryId : Option (List Char)) (rowCat : Option Nat) :
    Bool :=
  if optTruthy categoryId then
    let v := categoryId.getD []
    if v = "null".data ∨ v = [] then rowCat.isNone
    else rowCat = some (sqlCoerceNat v)
  else true

/-- Modelled from the spec's tri-state category filter, amended to the
code's truthiness guard: omitted **or empty** `categoryId` means no filter,
the sentinel `"null"` means only uncategorized rows, and any other value
means only that category. -/
def categoryTriState (categoryId : Option (List Char)) (rowCat : Option Nat) :
    Prop :=
  match categoryId with
  | none => True
  | some v =>
    if v = [] then True
    else if v = "null".data then rowCat = none
    else rowCat = some (sqlCoerceNat v)

theorem categoryFilterB_iff (categoryId : Option (List Char))
    (rowCat : Option Nat) :
    categoryFilterB categoryId rowCat = true ↔
      categoryTriState categoryId rowCat := by
  cases categoryId with
  | none => simp [categoryFilterB, categoryTriState, optTruthy]
  | some v =>
    by_cases hv : v = []
    · subst hv
      simp [categoryFilterB, categoryTriState, optTruthy]
    · by_cases hn : v = "null".data
      · subst hn
        simp [categoryFilterB, categoryTriState, optTruthy,
          Option.isNone_iff_eq_none]
      · simp [categoryFilterB, categoryTriState, optTruthy, hv, hn]

/-- `ORDER BY ad.date ASC` on canonical `YYYY-MM-DD` strings. -/
def dateRowLe (a b : AvailableDate) : Prop := charListLt b.date a.date = false

instance : DecidableRel dateRowLe :=
  fun _ _ => inferInstanceAs (Decidable (_ = false))

/-- `ORDER BY start_time ASC`. -/
def slotTimeLe (a b : TimeSlot) : Prop := a.start_time ≤ b.start_time

instance : DecidableRel slotTimeLe :=
  fun _ _ => inferInstanceAs (Decidable (_ ≤ _))

instance : IsTotal TimeSlot slotTimeLe :=
  ⟨fun a b => Nat.le_total a.start_time b.start_time⟩

instance : IsTrans TimeSlot slotTimeLe :=
  ⟨fun _ _ _ => Nat.le_trans⟩

/-- `GET /api/available-dates`: available rows with `date >= CURDATE()`,
category tri-state filter, ordered by date ascending. -/
def listAvailableDates (today : List Char) (categoryId : Option (List Char))
    (rows : List AvailableDate) : List AvailableDate :=
  List.insertionSort dateRowLe (rows.filter fun r =>
    r.is_available = some true && !charListLt r.date today &&
      categoryFilterB categoryId r.service_category_id)

/-- `GET /api/available-time-slots`: the `date` query parameter truncated at
a `'T'`, rows of that date with `is_available = 1`, category tri-state
filter, ordered by `start_time` ascending. -/
def listAvailableTimeSlots (dateParam : List Char)
    (categoryId : Option (List Char)) (rows : List TimeSlot) : List TimeSlot :=
  let dateOnly := splitHead ['T'] dateParam
  List.insertionSort slotTimeLe (rows.filter fun r =>
    r.date = dateOnly && r.is_available = some true &&
      categoryFilterB categoryId r.service_category_id)

/-- An available date row carrying a concrete category. -/
def demoDateRow : AvailableDate :=
  { id := 1, date := "2099-01-01".data, service_category_id := some 7,
    is_available := some true, max_appointments := 10 }

/-- **C6, counterexample.** With the sentinel `categoryId = ''` the claim
requires only rows with `service_category_id IS NULL`; but `''` is falsy in
the `if (categoryId)` guard, so the `categoryId === ''` branch is dead and
no category filter is applied: the listing returns a row whose category is
`7`, not null. -/
theorem C6_counterexample_empty_sentinel_is_no_filter :
    listAvailableDates "2025-01-01".data (some []) [demoDateRow] =
      [demoDateRow] ∧
    demoDateRow.service_category_id ≠ none := by
  decide

/-- **C6, amended.** The public listings implement the tri-state category
filter with the empty-string sentinel behaving like an omitted parameter
(no filter, because `''` is falsy in the truthiness guard); only the
sentinel `"null"` restricts to rows with null category, and any other value
restricts to that category.  `listAvailableDates` additionally keeps only
`is_available` rows with `date >= today`; `listAvailableTimeSlots` keeps
only available rows of the one requested date (truncated at `'T'`), ordered
by `start_time` ascending. -/
theorem C6_listing_tristate_amended (today : List Char)
    (categoryId : Option (List Char)) (dateRows : List AvailableDate)
    (dateParam : List Char) (slotRows : List TimeSlot) :
    (∀ r : AvailableDate, r ∈ listAvailableDates today categoryId dateRows ↔
      r ∈ dateRows ∧ r.is_available = some true ∧
        charListLt r.date today = false ∧
        categoryTriState categoryId r.service_category_id) ∧
    (∀ t : TimeSlot, t ∈ listAvailableTimeSlots dateParam categoryId slotRows ↔
      t ∈ slotRows ∧ t.date = splitHead ['T'] dateParam ∧
        t.is_available = some true ∧
        categoryTriState categoryId t.service_category_id) ∧
    List.Sorted slotTimeLe (listAvailableTimeSlots dateParam categoryId slotRows) := by
  refine ⟨fun r => ?_, fun t => ?_, ?_⟩
  · rw [listAvailableDates, (List.perm_insertionSort dateRowLe _).mem_iff,
      List.mem_filter]
    simp only [Bool.and_eq_true, Bool.not_eq_true', decide_eq_true_eq,
      categoryFilterB_iff]
    tauto
  · rw [listAvailableTimeSlots, (List.perm_insertionSort slotTimeLe _).mem_iff,
      List.mem_filter]
    simp only [Bool.and_eq_true, decide_eq_true_eq, categoryFilterB_iff]
    tauto
  · exact List.sorted_insertionSort slotTimeLe _

/-! ## Ziina payment webhook (POST /api/payments/ziina/webhook) -/

/-- `payments` rows, holding the columns the webhook touches. -/
structure Payment where
  payment_id : List Char
  status : Option (List Char)
  deriving DecidableEq, Repr, Inhabited

/-- `appointments` rows, holding the columns the claims touch. -/
structure Appointment where
  id : Nat
  user_id : Nat
  appointment_date : List Char
  appointment_time : List Char
  status : List Char
  deriving DecidableEq, Repr, Inhabited

/-- The webhook's JSON body `{ payment_id, status, order_id }`. -/
structure WebhookBody where
  payment_id : Option (List Char)
  status : Option (List Char)
  order_id : Option (List Char)
  deriving DecidableEq, Repr

/-- `UPDATE payments SET status = ? WHERE payment_id = ?`, one row. -/
def webhookPaymentUpd (body : WebhookBody) (p : Payment) : Payment :=
  if body.payment_id = some p.payment_id then { p with status := body.status }
  else p

/-- `UPDATE appointments SET status = 'confirmed' WHERE id = ?`, one row. -/
def webhookApptUpd (n : Nat) (a : Appointment) : Appointment :=
  if a.id = n then { a with status := "confirmed".data } else a

/-- The webhook handler: update the payment's status by `payment_id`; then,
when `status === 'completed'` and `order_id` is truthy, delete the first
occurrence of `'appointment_'` from `order_id` and force the matching
appointment's status to `'confirmed'` (the resulting string coerced against
the `INT` id column). -/
def processZiinaWebhook (payments : List Payment) (appts : List Appointment)
    (body : WebhookBody) : List Payment × List Appointment :=
  let payments' := payments.map (webhookPaymentUpd body)
  if body.status = some "completed".data ∧ optTruthy body.order_id = true then
    let appointmentId :=
      replaceFirst (body.order_id.getD []) "appointment_".data []
    (payments', appts.map (webhookApptUpd (sqlCoerceNat appointmentId)))
  else (payments', appts)

theorem webhookPaymentUpd_idem (body : WebhookBody) (p : Payment) :
    webhookPaymentUpd body (webhookPaymentUpd body p) = webhookPaymentUpd body p := by
  unfold webhookPaymentUpd
  by_cases h : body.payment_id = some p.payment_id
  · simp [h]
  · simp [h]

theorem webhookApptUpd_idem (n : Nat) (a : Appointment) :
    webhookApptUpd n (webhookApptUpd n a) = webhookApptUpd n a := by
  unfold webhookApptUpd
  by_cases h : a.id = n
  · simp [h]
  · simp [h]

/-- Deleting a pattern that sits at the front of the string leaves exactly
the rest. -/
theorem replaceFirst_cons_prefix (c : Char) (cs rest : List Char) :
    replaceFirst ((c :: cs) ++ rest) (c :: cs) [] = rest := by
  have hpre : (c :: cs).isPrefixOf ((c :: cs) ++ rest) = true := by
    rw [List.isPrefixOf_iff_prefix]
    exact List.prefix_append _ _
  rw [replaceFirst]
  rw [show (c :: cs) ++ rest = c :: (cs ++ rest) from rfl]
  rw [findSplit]
  rw [show c :: (cs ++ rest) = (c :: cs) ++ rest from rfl, hpre]
  simp [List.drop_left]

/-- The body of a completed-payment webhook delivery. -/
def completedWebhookBody (pid : Option (List Char)) (orderId : List Char) :
    WebhookBody :=
  { payment_id := pid, status := some "completed".data, order_id := some orderId }

theorem map_self_idem {α : Type} (f : α → α) (h : ∀ a, f (f a) = f a)
    (l : List α) : (l.map f).map f = l.map f := by
  rw [List.map_map]
  exact List.map_congr_left fun a _ => h a

/-- **C7.** A webhook whose body carries `status = "completed"` and
`order_id = "appointment_<id>"` forces the status of every appointment whose
id matches `<id>` to `'confirmed'`, regardless of its prior status; rows
with other ids are left as they were; and re-delivering the same webhook
leaves the resulting state unchanged (idempotent overwrite). -/
theorem C7_completed_webhook_confirms_appointment (payments : List Payment)
    (appts : List Appointment) (pid : Option (List Char)) (idStr : List Char) :
    (∀ a ∈ (processZiinaWebhook payments appts
        (completedWebhookBody pid ("appointment_".data ++ idStr))).2,
      a.id = sqlCoerceNat idStr → a.status = "confirmed".data) ∧
    (∀ a ∈ (processZiinaWebhook payments appts
        (completedWebhookBody pid ("appointment_".data ++ idStr))).2,
      a.id ≠ sqlCoerceNat idStr → a ∈ appts) ∧
    processZiinaWebhook
      (processZiinaWebhook payments appts
        (completedWebhookBody pid ("appointment_".data ++ idStr))).1
      (processZiinaWebhook payments appts
        (completedWebhookBody pid ("appointment_".data ++ idStr))).2
      (completedWebhookBody pid ("appointment_".data ++ idStr)) =
    processZiinaWebhook payments appts
      (completedWebhookBody pid ("appointment_".data ++ idStr)) := by
  have hrep : replaceFirst ("appointment_".data ++ idStr) "appointment_".data []
      = idStr := by
    have h : "appointment_".data = 'a' :: "ppointment_".data := rfl
    rw [h]
    exact replaceFirst_cons_prefix 'a' "ppointment_".data idStr
  have hcond : (completedWebhookBody pid ("appointment_".data ++ idStr)).status
      = some "completed".data ∧
      optTruthy (completedWebhookBody pid ("appointment_".data ++ idStr)).order_id
      = true := by
    refine ⟨rfl, ?_⟩
    simp [completedWebhookBody, optTruthy]
  have hred : processZiinaWebhook payments appts
      (completedWebhookBody pid ("appointment_".data ++ idStr)) =
      (payments.map (webhookPaymentUpd
        (completedWebhookBody pid ("appointment_".data ++ idStr))),
       appts.map (webhookApptUpd (sqlCoerceNat idStr))) := by
    rw [processZiinaWebhook, if_pos hcond]
    simp only [completedWebhookBody, Option.getD_some, hrep]
  refine ⟨?_, ?_, ?_⟩
  · intro a ha hid
    rw [hred] at ha
    obtain ⟨a0, _, rfl⟩ := List.mem_map.mp ha
    by_cases h : a0.id = sqlCoerceNat idStr
    · simp [webhookApptUpd, h]
    · rw [webhookApptUpd, if_neg h] at hid
      exact absurd hid h
  · intro a ha hne
    rw [hred] at ha
    obtain ⟨a0, ha0, rfl⟩ := List.mem_map.mp ha
    by_cases h : a0.id = sqlCoerceNat idStr
    · rw [webhookApptUpd, if_pos h] at hne
      exact absurd h hne
    · rw [webhookApptUpd, if_neg h]
      exact ha0
  · rw [hred]
    rw [show (processZiinaWebhook
        (payments.map (webhookPaymentUpd
          (completedWebhookBody pid ("appointment_".data ++ idStr))))
        (appts.map (webhookApptUpd (sqlCoerceNat idStr)))
        (completedWebhookBody pid ("appointment_".data ++ idStr))) =
        ((payments.map (webhookPaymentUpd
          (completedWebhookBody pid ("appointment_".data ++ idStr)))).map
            (webhookPaymentUpd
              (completedWebhookBody pid ("appointment_".data ++ idStr))),
         (appts.map (webhookApptUpd (sqlCoerceNat idStr))).map
           (webhookApptUpd (sqlCoerceNat idStr)))
      from by rw [processZiinaWebhook, if_pos hcond];
              simp only [completedWebhookBody, Option.getD_some, hrep]]
    rw [map_self_idem _ (webhookPaymentUpd_idem _),
      map_self_idem _ (webhookApptUpd_idem _)]

/-- Witness for C7: order id `appointment_42` confirms the pending
appointment 42. -/
theorem C7_completed_webhook_confirms_appointment_witness :
    (∀ a ∈ (processZiinaWebhook []
        [{ id := 42, user_id := 1, appointment_date := "2025-03-10".data,
           appointment_time := "10:00:00".data, status := "pending".data }]
        (completedWebhookBody none ("appointment_".data ++ "42".data))).2,
      a.id = sqlCoerceNat "42".data → a.status = "confirmed".data) :=
  (C7_completed_webhook_confirms_appointment []
    [{ id := 42, user_id := 1, appointment_date := "2025-03-10".data,
       appointment_time := "10:00:00".data, status := "pending".data }]
    none "42".data).1

theorem findSplit_eq_none_of_not_infix (pat s : List Char)
    (h : ¬ pat <:+: s) : findSplit pat s = none := by
  induction s with
  | nil => rfl
  | cons c rest ih =>
    have hp : pat.isPrefixOf (c :: rest) = false := by
      rw [Bool.eq_false_iff]
      intro hc
      exact h (List.isPrefixOf_iff_prefix.mp hc).isInfix
    have hrest : ¬ pat <:+: rest := fun hi =>
      h (hi.trans (List.suffix_cons c rest).isInfix)
    rw [findSplit]
    simp only [hp, Bool.false_eq_true, if_false, ih hrest]

/-- Appointments 5 and 57, both pending. -/
def demoPrefixAppts : List Appointment :=
  [{ id := 5, user_id := 1, appointment_date := "2025-03-10".data,
     appointment_time := "10:00:00".data, status := "pending".data },
   { id := 57, user_id := 1, appointment_date := "2025-03-10".data,
     appointment_time := "10:00:00".data, status := "pending".data }]

/-- **C10, counterexample.** The order id `5appointment_7` has no
`appointment_` *prefix*, so by the claim the handler should use the entire
order id (which the `INT` id column coerces to `5`) as the appointment id;
but `replace` deletes the first *occurrence* anywhere, yielding `57`: the
webhook confirms appointment 57 and leaves appointment 5 pending. -/
theorem C10_counterexample_midstring_occurrence :
    List.isPrefixOf "appointment_".data "5appointment_7".data = false ∧
    sqlCoerceNat "5appointment_7".data = 5 ∧
    replaceFirst "5appointment_7".data "appointment_".data [] = "57".data ∧
    (processZiinaWebhook [] demoPrefixAppts
        (completedWebhookBody none "5appointment_7".data)).2 =
      [{ id := 5, user_id := 1, appointment_date := "2025-03-10".data,
         appointment_time := "10:00:00".data, status := "pending".data },
       { id := 57, user_id := 1, appointment_date := "2025-03-10".data,
         appointment_time := "10:00:00".data, status := "confirmed".data }] := by
  decide

/-- **C10, amended.** The handler derives the target appointment id by
deleting the first occurrence of `"appointment_"` from `order_id`, a no-op
when no *occurrence* (not merely no prefix) is present; hence for every
completed-payment webhook whose `order_id` contains no occurrence of
`"appointment_"` (e.g. `order_id = "42"`), the confirmation update runs with
the entire `order_id` as the appointment id — it is not restricted to order
identifiers of the form `"appointment_<id>"`. -/
theorem C10_no_occurrence_uses_entire_order_id (payments : List Payment)
    (appts : List Appointment) (pid : Option (List Char)) (orderId : List Char)
    (hno : ¬ "appointment_".data <:+: orderId) (hne : orderId ≠ []) :
    replaceFirst orderId "appointment_".data [] = orderId ∧
    ∀ a ∈ (processZiinaWebhook payments appts
        (completedWebhookBody pid orderId)).2,
      a.id = sqlCoerceNat orderId → a.status = "confirmed".data := by
  have hfs := findSplit_eq_none_of_not_infix "appointment_".data orderId hno
  have hrep : replaceFirst orderId "appointment_".data [] = orderId := by
    rw [replaceFirst, hfs]
  have hcond : (completedWebhookBody pid orderId).status
      = some "completed".data ∧
      optTruthy (completedWebhookBody pid orderId).order_id = true := by
    refine ⟨rfl, ?_⟩
    simp [completedWebhookBody, optTruthy, hne]
  refine ⟨hrep, ?_⟩
  intro a ha hid
  rw [processZiinaWebhook, if_pos hcond] at ha
  simp only [completedWebhookBody, Option.getD_some, hrep] at ha
  obtain ⟨a0, _, rfl⟩ := List.mem_map.mp ha
  by_cases h : a0.id = sqlCoerceNat orderId
  · simp [webhookApptUpd, h]
  · rw [webhookApptUpd, if_neg h] at hid
    exact absurd hid h

/-- Witness for the amended C10 at `order_id = "42"` and a pending
appointment 42. -/
theorem C10_no_occurrence_uses_entire_order_id_witness :
    replaceFirst "42".data "appointment_".data [] = "42".data ∧
    ∀ a ∈ (processZiinaWebhook []
        [{ id := 42, user_id := 1, appointment_date := "2025-03-10".data,
           appointment_time := "10:00:00".data, status := "pending".data }]
        (completedWebhookBody none "42".data)).2,
      a.id = sqlCoerceNat "42".data → a.status = "confirmed".data :=
  C10_no_occurrence_uses_entire_order_id []
    [{ id := 42, user_id := 1, appointment_date := "2025-03-10".data,
       appointment_time := "10:00:00".data, status := "pending".data }]
    none "42".data (by decide) (by decide)

/-! ## User appointment update (PUT /api/user/appointments/:id) -/

/-- The handler's dynamic query builder: start from
`'UPDATE appointments SET '`, append one `'col = ?, '` fragment per truthy
field, `slice(0, -2)` off the trailing two characters, then append the
`WHERE` clause. -/
def buildApptUpdateQuery (status appointment_date appointment_time :
    Option (List Char)) : List Char :=
  let q := "UPDATE appointments SET ".data
  let q := if optTruthy status then q ++ "status = ?, ".data else q
  let q := if optTruthy appointment_date then
    q ++ "appointment_date = ?, ".data else q
  let q := if optTruthy appointment_time then
    q ++ "appointment_time = ?, ".data else q
  q.take (q.length - 2) ++ " WHERE id = ? AND user_id = ?".data

/-- MySQL's syntax check, restricted to the strings this builder can emit:
with at least one assignment the query is a well-formed parameterized
`UPDATE` beginning `UPDATE appointments SET `; with none, the `slice(0,-2)`
has eaten into the keyword (`UPDATE appointments SE WHERE ...`), which the
server rejects as a syntax error. -/
def isWellFormedUpdate (q : List Char) : Bool :=
  "UPDATE appointments SET ".data.isPrefixOf q

inductive UserApptUpdateResp where
  | notFound
  | serverError
  | ok
  deriving DecidableEq, Repr

/-- `PUT /api/user/appointments/:id`: ownership check, dynamic query build,
execute.  A failed execute is caught and reported as a server error with no
change to the table; a successful one applies the provided fields to the
owned row. -/
def updateUserAppointment (appts : List Appointment) (userId aid : Nat)
    (status appointment_date appointment_time : Option (List Char)) :
    UserApptUpdateResp × List Appointment :=
  if appts.any (fun a => a.id = aid && a.user_id = userId) then
    if isWellFormedUpdate
        (buildApptUpdateQuery status appointment_date appointment_time) then
      (.ok, appts.map fun a =>
        if a.id = aid && a.user_id = userId then
          { a with
            status := if optTruthy status then status.getD [] else a.status,
            appointment_date := if optTruthy appointment_date then
              appointment_date.getD [] else a.appointment_date,
            appointment_time := if optTruthy appointment_time then
              appointment_time.getD [] else a.appointment_time }
        else a)
    else (.serverError, appts)
  else (.notFound, appts)

/-- **C9.** For an appointment owned by the caller, an update whose patch
contains none of `status`, `appointment_date`, `appointment_time` is not a
no-op success: the concatenated query degenerates to
`UPDATE appointments SE WHERE id = ? AND user_id = ?` — a malformed
statement — so the request fails with a server error and the stored
appointments are unchanged. -/
theorem C9_empty_patch_is_server_error (appts : List Appointment)
    (userId aid : Nat)
    (howned : ∃ a ∈ appts, a.id = aid ∧ a.user_id = userId) :
    buildApptUpdateQuery none none none =
      "UPDATE appointments SE WHERE id = ? AND user_id = ?".data ∧
    isWellFormedUpdate (buildApptUpdateQuery none none none) = false ∧
    updateUserAppointment appts userId aid none none none =
      (.serverError, appts) := by
  refine ⟨by decide, by decide, ?_⟩
  obtain ⟨a, ha, hid, huser⟩ := howned
  have hany : appts.any (fun a => a.id = aid && a.user_id = userId) = true :=
    List.any_eq_true.mpr ⟨a, ha, by simp [hid, huser]⟩
  rw [updateUserAppointment, if_pos hany,
    if_neg (by rw [show isWellFormedUpdate
      (buildApptUpdateQuery none none none) = false from by decide]; simp)]

/-- Witness for C9 at a concrete owned appointment. -/
theorem C9_empty_patch_is_server_error_witness :
    buildApptUpdateQuery none none none =
      "UPDATE appointments SE WHERE id = ? AND user_id = ?".data ∧
    isWellFormedUpdate (buildApptUpdateQuery none none none) = false ∧
    updateUserAppointment
      [{ id := 7, user_id := 3, appointment_date := "2025-03-10".data,
         appointment_time := "10:00:00".data, status := "pending".data }]
      3 7 none none none =
      (.serverError,
        [{ id := 7, user_id := 3, appointment_date := "2025-03-10".data,
           appointment_time := "10:00:00".data, status := "pending".data }]) :=
  C9_empty_patch_is_server_error
    [{ id := 7, user_id := 3, appointment_date := "2025-03-10".data,
       appointment_time := "10:00:00".data, status := "pending".data }]
    3 7 ⟨_, List.mem_singleton.mpr rfl, rfl, rfl⟩

/-! ## Appointment date round trip (POST /api/user/appointments,
GET /api/user/appointments/:id)

Calendar arithmetic: proleptic-Gregorian conversions between a civil date
and its day count since 1970-01-01 (all divisions below act on non-negative
operands for the dates involved). -/

def daysFromCivil (y m d : Int) : Int :=
  let y' := if m ≤ 2 then y - 1 else y
  let era := (if 0 ≤ y' then y' else y' - 399) / 400
  let yoe := y' - era * 400
  let doy := (153 * (m + (if 2 < m then -3 else 9)) + 2) / 5 + d - 1
  let doe := yoe * 365 + yoe / 4 - yoe / 100 + doy
  era * 146097 + doe - 719468

def civilFromDays (z0 : Int) : Int × Int × Int :=
  let z := z0 + 719468
  let era := (if 0 ≤ z then z else z - 146096) / 146097
  let doe := z - era * 146097
  let yoe := (doe - doe / 1460 + doe / 36524 - doe / 146096) / 365
  let y := yoe + era * 400
  let doy := doe - (365 * yoe + yoe / 4 - yoe / 100)
  let mp := (5 * doy + 2) / 153
  let d := doy - (153 * mp + 2) / 5 + 1
  let m := mp + (if mp < 10 then 3 else -9)
  (y + (if m ≤ 2 then 1 else 0), m, d)

def pad2Int (n : Int) : List Char := padStart2 (Nat.toDigits 10 n.toNat)

def pad4Int (n : Int) : List Char :=
  let s := Nat.toDigits 10 n.toNat
  List.replicate (4 - s.length) '0' ++ s

/-- Strict parse of a canonical `YYYY-MM-DD` string. -/
def parseISODate (s : List Char) : Option (Int × Int × Int) :=
  match s with
  | [y1, y2, y3, y4, c1, m1, m2, c2, d1, d2] =>
    if y1.isDigit && y2.isDigit && y3.isDigit && y4.isDigit && c1 = '-' &&
        m1.isDigit && m2.isDigit && c2 = '-' && d1.isDigit && d2.isDigit then
      some ((((digitVal y1 * 10 + digitVal y2) * 10 + digitVal y3) * 10 +
          digitVal y4 : Nat),
        (digitVal m1 * 10 + digitVal m2 : Nat),
        (digitVal d1 * 10 + digitVal d2 : Nat))
    else none
  | _ => none

/-- JS `new Date(s)` for a date-only ISO string: parsed as **UTC** midnight,
returned as minutes since the epoch (`none` = `Invalid Date`; the in-range
check is the nominal `1..12` / `1..31`). -/
def jsParseDateOnlyUTC (s : List Char) : Option Int :=
  match parseISODate s with
  | none => none
  | some (y, m, d) =>
    if 1 ≤ m ∧ m ≤ 12 ∧ 1 ≤ d ∧ d ≤ 31 then
      some (1440 * daysFromCivil y m d)
    else none

/-- The date part of `toISOString()` of an epoch instant in minutes
(the `split('T')[0]` of the serialized form). -/
def isoDatePartOfMinutes (mins : Int) : List Char :=
  let day := mins / 1440
  match civilFromDays day with
  | (y, m, d) => pad4Int y ++ '-' :: (pad2Int m ++ '-' :: pad2Int d)

/-- The create handler's date normalization:
`new Date(appointment_date).toISOString().split('T')[0]`, `none` when the
date does not parse. -/
def normalizeAppointmentDate (s : List Char) : Option (List Char) :=
  (jsParseDateOnlyUTC s).map isoDatePartOfMinutes

/-- Body of `POST /api/user/appointments` (the required fields plus
`status`; the remaining pass-through fields are not modelled). -/
structure ApptCreateReq where
  service : Option (List Char)
  appointment_date : Option (List Char)
  appointment_time : Option (List Char)
  location : Option (List Char)
  price : Option (List Char)
  status : Option (List Char)
  deriving DecidableEq, Repr

inductive ApptCreateResult where
  | missingFields
  | badDate
  | created (appts : List Appointment) (newId : Nat)
  deriving DecidableEq, Repr

/-- `AUTO_INCREMENT` id for an appointment insert. -/
def nextApptId (appts : List Appointment) : Nat :=
  (appts.map Appointment.id).foldr max 0 + 1

/-- `POST /api/user/appointments`: required-field check, time normalization
via `extractStartTime`, date normalization via `Date`/`toISOString`, insert
with status defaulted to `'pending'`. -/
def createAppointment (appts : List Appointment) (userId : Nat)
    (req : ApptCreateReq) : ApptCreateResult :=
  if !optTruthy req.service || !optTruthy req.appointment_date ||
      !optTruthy req.appointment_time || !optTruthy req.location ||
      !optTruthy req.price then
    .missingFields
  else
    match normalizeAppointmentDate (req.appointment_date.getD []) with
    | none => .badDate
    | some formattedDate =>
      let a : Appointment :=
        { id := nextApptId appts, user_id := userId,
          appointment_date := formattedDate,
          appointment_time := extractStartTime (req.appointment_time.getD []),
          status := if optTruthy req.status then req.status.getD []
            else "pending".data }
      .created (appts ++ [a]) a.id

/-- What the `DATE` column of a fetched appointment serializes to in the
JSON response, as its calendar-date part.  The pool sets neither
`dateStrings` nor `timezone`, so `mysql2` materializes a `DATE` as a JS
`Date` at *local* midnight (`tzOffsetMin` = the server's UTC offset in
minutes, east positive), and `res.json` serializes that `Date` through
`toISOString()` in UTC. -/
def mysqlDateJsonDatePart (tzOffsetMin : Int) (stored : List Char) :
    List Char :=
  match parseISODate stored with
  | none => []
  | some (y, m, d) =>
    isoDatePartOfMinutes (1440 * daysFromCivil y m d - tzOffsetMin)

/-- `GET /api/user/appointments/:id`: the owned row's serialized
`appointment_date`, as its calendar-date part. -/
def getUserAppointmentDateJson (tzOffsetMin : Int) (appts : List Appointment)
    (userId aid : Nat) : Option (List Char) :=
  match appts.find? (fun a => a.id = aid && a.user_id = userId) with
  | none => none
  | some a => some (mysqlDateJsonDatePart tzOffsetMin a.appointment_date)

/-- The claim's create request: appointment on 2025-03-10. -/
def demoApptReq : ApptCreateReq :=
  { service := some "Cleaning".data,
    appointment_date := some "2025-03-10".data,
    appointment_time := some "10:00:00".data,
    location := some "Dubai".data, price := some "100".data, status := none }

/-- The row that create stores for `demoApptReq`. -/
def demoStoredAppt : Appointment :=
  { id := 1, user_id := 1, appointment_date := "2025-03-10".data,
    appointment_time := "10:00:00".data, status := "pending".data }

/-- **C8, counterexample.** On a server at UTC+4 (offset 240 minutes, the
deployment's own region), creating an appointment on `2025-03-10` and
reading it back serializes the `DATE` as the previous calendar day
`2025-03-09`: the round trip does not hold for every server timezone. -/
theorem C8_counterexample_utc_plus_4 :
    createAppointment [] 1 demoApptReq = .created [demoStoredAppt] 1 ∧
    getUserAppointmentDateJson 240 [demoStoredAppt] 1 1 =
      some "2025-03-09".data ∧
    "2025-03-09".data ≠ "2025-03-10".data := by
  decide

/-- **C8, amended.** Creating an appointment with
`appointment_date = "2025-03-10"` (write-side normalization is
timezone-independent: date-only strings parse as UTC) and reading it back
yields the same calendar date **iff the server's UTC offset is ≤ 0** (UTC or
west of it); for east-of-UTC offsets the serialized date is the previous
day. -/
theorem C8_date_roundtrip_amended (tz : Int) (h1 : -720 ≤ tz)
    (h2 : tz ≤ 840) :
    createAppointment [] 1 demoApptReq = .created [demoStoredAppt] 1 ∧
    (getUserAppointmentDateJson tz [demoStoredAppt] 1 1 =
        some "2025-03-10".data ↔ tz ≤ 0) := by
  refine ⟨by decide, ?_⟩
  have hfind : [demoStoredAppt].find?
      (fun a => a.id = 1 && a.user_id = 1) = some demoStoredAppt := by decide
  have hparse : parseISODate "2025-03-10".data = some (2025, 3, 10) := by
    decide
  have hD : daysFromCivil 2025 3 10 = 20157 := by decide
  rw [getUserAppointmentDateJson, hfind]
  show some (mysqlDateJsonDatePart tz "2025-03-10".data) =
      some "2025-03-10".data ↔ tz ≤ 0
  rw [mysqlDateJsonDatePart, hparse]
  show some (isoDatePartOfMinutes (1440 * daysFromCivil 2025 3 10 - tz)) =
      some "2025-03-10".data ↔ tz ≤ 0
  rw [hD]
  by_cases htz : tz ≤ 0
  · have hday : (1440 * 20157 - tz : Int) / 1440 = 20157 := by omega
    simp only [isoDatePartOfMinutes, hday]
    exact iff_of_true (by decide) htz
  · have hday : (1440 * 20157 - tz : Int) / 1440 = 20156 := by omega
    simp only [isoDatePartOfMinutes, hday]
    refine iff_of_false ?_ htz
    intro hcon
    rw [Option.some_inj] at hcon
    exact absurd hcon (by decide)

/-- Witness for the amended C8 at offset 0 (UTC): the round trip holds. -/
theorem C8_date_roundtrip_amended_witness :
    createAppointment [] 1 demoApptReq = .created [demoStoredAppt] 1 ∧
    (getUserAppointmentDateJson 0 [demoStoredAppt] 1 1 =
        some "2025-03-10".data ↔ (0 : Int) ≤ 0) :=
  C8_date_roundtrip_amended 0 (by norm_num) (by norm_num)
